import Mathlib

/-!
A shallow embedding of `src/tree/objectpath.rs` from the dbus-rs repository:
the object-path tree, interface descriptors, the interface cache, the
property sub-protocol, introspection rendering and message dispatch.

Modelling conventions:
* Rust `BTreeMap`-backed `ArcMap`s become sorted association lists
  (`List (String × α)`) with ordered insertion (`mapInsert`) and lookup
  (`mapGet`); iteration order is therefore the sorted key order, as for
  `BTreeMap`.  All paths and names in play are ASCII, so the char-wise
  order below coincides with Rust's byte-wise string order.
* `Arc` sharing becomes plain values; "the identical shared instance"
  becomes equality with the value stored in the cache.
* Fallible operations return `Except`/`Option`.  The one panic site in the
  source (`CString::new(e.description()).unwrap()` in `Tree::handle`) is
  made explicit: `Tree.handle` returns `Except Unit _` and `Except.error ()`
  models the panic.
* Code of the repository that is not part of `src/tree/objectpath.rs`
  (method/property/signal descriptors, `MethodErr`, the transport
  connection) is modelled from the specification; those definitions carry a
  doc comment starting `Modelled from the spec:`.
-/

namespace DBus

/-- Strict char-list order, modelling Rust's byte-wise string order
(identical on the ASCII strings used by the tree). -/
def chListLt : List Char → List Char → Bool
  | [], [] => false
  | [], _ :: _ => true
  | _ :: _, [] => false
  | c :: cs, d :: ds => (decide (c < d) || (decide (c = d) && chListLt cs ds))

/-- Strict string order used by the `BTreeMap` model. -/
def strLtB (a b : String) : Bool := chListLt a.data b.data

/-- Key equality derived from the order, as a `BTreeMap` does with `Ord`. -/
def strEqB (a b : String) : Bool := !strLtB a b && !strLtB b a

/-- Lookup in a name-keyed association list (models `BTreeMap::get`). -/
def mapGet {α : Type} (k : String) : List (String × α) → Option α
  | [] => none
  | kv :: t => if strEqB k kv.1 then some kv.2 else mapGet k t

/-- Ordered insert-or-replace (models `BTreeMap::insert`): keeps the list
sorted by key and replaces an existing entry with the same key. -/
def mapInsert {α : Type} (k : String) (v : α) : List (String × α) → List (String × α)
  | [] => [(k, v)]
  | kv :: t =>
    if strLtB k kv.1 then (k, v) :: kv :: t
    else if strLtB kv.1 k then kv :: mapInsert k v t
    else (k, v) :: t

/-- Membership test (models `BTreeMap::contains_key`). -/
def mapContains {α : Type} (k : String) (l : List (String × α)) : Bool :=
  (mapGet k l).isSome

/-- Number of entries carrying a given key. -/
def countKey {α : Type} (k : String) (l : List (String × α)) : Nat :=
  (l.filter (fun kv => strEqB kv.1 k)).length

/-- Prefix test on char lists (models `str::starts_with`). -/
def chStarts : List Char → List Char → Bool
  | [], _ => true
  | _ :: _, [] => false
  | c :: cs, d :: ds => (decide (c = d) && chStarts cs ds)

/-- Character membership (models `str::contains(char)`). -/
def chHas (l : List Char) (c : Char) : Bool := l.contains c

/-- Char-count length; equals Rust's byte length on the ASCII strings used. -/
def strLen (s : String) : Nat := s.data.length

/-- Drop of the first `n` chars (models slicing `&s[n..]` on ASCII). -/
def strDrop (s : String) (n : Nat) : String := ⟨s.data.drop n⟩

/-- First char as a string (models slicing `&s[i..i+1]` after a drop). -/
def strTakeOne (s : String) : String := ⟨s.data.take 1⟩

/-- The NUL character, which `CString::new` rejects in its input. -/
def nulChar : Char := Char.ofNat 0

/-- Modelled from the spec (transport boundary, std `CString::new`):
succeeds exactly when the string has no interior NUL byte. -/
def cstring_new (s : String) : Option String :=
  if chHas s.data nulChar then none else some s

/-- Message kinds distinguished by the dispatch layer. -/
inductive MessageType where
  | methodCall
  | methodReturn
  | errorReply
  | signalMsg
  deriving DecidableEq

/-- Wire argument values, as far as the property sub-protocol needs them. -/
inductive Arg where
  | str (s : String)
  | i32 (n : Int)
  | variant (a : Arg)
  | dict (entries : List (String × Arg))

/-- Read an argument as a string (models `Iter::get::<&str>` / `<&CStr>`). -/
def Arg.asStr : Arg → Option String
  | Arg.str s => some s
  | _ => none

/-- A D-Bus message: type, addressing headers and body arguments.  Serials
and sender/destination are not modelled; an error reply records the error
name it was built from. -/
structure Message where
  msgType : MessageType
  path : Option String
  iface : Option String
  member : Option String
  args : List Arg
  errName : Option String

/-- First body argument read as a string (models `Message::get1`). -/
def Message.get1 (m : Message) : Option String :=
  m.args.head?.bind Arg.asStr

/-- First two body arguments read as strings (models `Message::get2`). -/
def Message.get2 (m : Message) : Option String × Option String :=
  (m.args.head?.bind Arg.asStr, (m.args.drop 1).head?.bind Arg.asStr)

/-- Fresh method-return reply (models `Message::method_return`; the
reply-serial linkage is not modelled). -/
def Message.method_return (_m : Message) : Message :=
  { msgType := MessageType.methodReturn, path := none, iface := none,
    member := none, args := [], errName := none }

/-- Error reply built from an error name and a NUL-free description
(models `Message::error`). -/
def Message.errorReply (_m : Message) (nm : String) (descr : String) : Message :=
  { msgType := MessageType.errorReply, path := none, iface := none,
    member := none, args := [Arg.str descr], errName := some nm }

/-- Append one argument to a message body (models `IterAppend`/`append1`). -/
def Message.appendArg (m : Message) (a : Arg) : Message :=
  { m with args := m.args ++ [a] }

/-- Modelled from the spec (§7; `MethodErr` lives in `methodtype.rs`, not
under `src/`): the structured error taxonomy of the dispatch layer, plus a
constructor for arbitrary user-handler errors. -/
inductive MethodErr where
  | noInterface (s : String)
  | noMethod (s : String)
  | noProperty (s : String)
  | propertyNotReadable (s : String)
  | propertyNotWritable (s : String)
  | invalidArg (s : String)
  | custom (nm : String) (d : String)

/-- Modelled from the spec: the protocol-level error name each kind
renders to. -/
def MethodErr.errorname : MethodErr → String
  | MethodErr.noInterface _ => "org.freedesktop.DBus.Error.UnknownInterface"
  | MethodErr.noMethod _ => "org.freedesktop.DBus.Error.UnknownMethod"
  | MethodErr.noProperty _ => "org.freedesktop.DBus.Error.UnknownProperty"
  | MethodErr.propertyNotReadable _ => "org.freedesktop.DBus.Error.PropertyReadOnly"
  | MethodErr.propertyNotWritable _ => "org.freedesktop.DBus.Error.PropertyWriteOnly"
  | MethodErr.invalidArg _ => "org.freedesktop.DBus.Error.InvalidArgs"
  | MethodErr.custom nm _ => nm

/-- Modelled from the spec: the human-readable description, naming the
payload the error carries. -/
def MethodErr.description : MethodErr → String
  | MethodErr.noInterface s => "Interface " ++ s ++ " not found"
  | MethodErr.noMethod s => "Method " ++ s ++ " not found"
  | MethodErr.noProperty s => "Property " ++ s ++ " not found"
  | MethodErr.propertyNotReadable s => "Property " ++ s ++ " is write-only"
  | MethodErr.propertyNotWritable s => "Property " ++ s ++ " is read-only"
  | MethodErr.invalidArg s => "Invalid argument " ++ s
  | MethodErr.custom _ d => d

/-- Conversion used for the `ok_or_else` idiom of the source. -/
def optToExcept {α : Type} (o : Option α) (e : MethodErr) : Except MethodErr α :=
  match o with
  | some a => Except.ok a
  | none => Except.error e

/-- Annotation set of an entity (modelled from the spec: a name-keyed
string map rendered as `<annotation .../>` elements). -/
structure Annotations where
  entries : List (String × String)

/-- Insert an annotation (last write wins, as in the source maps). -/
def Annotations.insert (a : Annotations) (n v : String) : Annotations :=
  ⟨mapInsert n v a.entries⟩

/-- Modelled from the spec: render each annotation as a self-closing
`<annotation name=".." value=".."/>` line at the given indent. -/
def annsIntrospect (a : Annotations) (indent : String) : String :=
  a.entries.foldl
    (fun acc kv => acc ++ indent ++ "<annotation name=\"" ++ kv.1 ++ "\" value=\"" ++ kv.2 ++ "\"/>\n") ""

/-- One declared method/signal argument: a name and a type signature. -/
structure MethodArg where
  name : String
  typ : String

/-- Property access capability (modelled from the spec §6/§8). -/
inductive Access where
  | read
  | write
  | readWrite
  deriving DecidableEq

/-- Modelled from the spec: a property descriptor with its capability flag,
current value and annotations; `setMsgs` are the side-effect messages its
write handler would emit. -/
structure Property where
  name : String
  typ : String
  rw : Access
  value : Arg
  anns : Annotations
  setMsgs : List Message

/-- Modelled from the spec: `can_get` fails with `PropertyNotReadable`
exactly on a write-only property. -/
def Property.can_get (p : Property) : Except MethodErr Unit :=
  match p.rw with
  | Access.write => Except.error (MethodErr.propertyNotReadable p.name)
  | _ => Except.ok ()

/-- Modelled from the spec: `can_set` fails with `PropertyNotWritable`
exactly on a read-only property. -/
def Property.can_set (p : Property) : Except MethodErr Unit :=
  match p.rw with
  | Access.read => Except.error (MethodErr.propertyNotWritable p.name)
  | _ => Except.ok ()

/-- Fresh read-only property descriptor (the factory default access). -/
def new_property (n : String) (t : String) (v : Arg) : Property :=
  { name := n, typ := t, rw := Access.read, value := v, anns := ⟨[]⟩, setMsgs := [] }

/-- Builder that changes the access capability. -/
def Property.access (p : Property) (a : Access) : Property := { p with rw := a }

/-- A signal descriptor: name, arguments, annotations. -/
structure Signal where
  name : String
  args : List MethodArg
  anns : Annotations

/-- Fresh signal descriptor. -/
def new_signal (n : String) : Signal := { name := n, args := [], anns := ⟨[]⟩ }

/-- Builder that appends a signal argument. -/
def Signal.arg (s : Signal) (n t : String) : Signal :=
  { s with args := s.args ++ [⟨n, t⟩] }

/-- Builder that adds an annotation to a signal. -/
def Signal.annotate (s : Signal) (n v : String) : Signal :=
  { s with anns := s.anns.insert n v }

/-- Builder that marks a signal deprecated. -/
def Signal.deprecated (s : Signal) : Signal :=
  s.annotate "org.freedesktop.DBus.Deprecated" "true"

/-- How a method body behaves when called.  The three built-in handlers of
the source (`Introspect`, property `Get`/`GetAll`/`Set`) are fixed tags so
that the (otherwise cyclic) closures over tree/path can be dispatched
structurally; a user handler is an arbitrary function of the message. -/
inductive Handler where
  | introspectH
  | propGetH
  | propGetAllH
  | propSetH
  | user (f : Message → Except MethodErr (List Message))

/-- A method descriptor: name, in/out argument declarations, annotations
and a body. -/
structure Method where
  name : String
  iArgs : List MethodArg
  oArgs : List MethodArg
  anns : Annotations
  handler : Handler

/-- Fresh method descriptor. -/
def new_method (n : String) (h : Handler) : Method :=
  { name := n, iArgs := [], oArgs := [], anns := ⟨[]⟩, handler := h }

/-- Builder that appends an input argument declaration. -/
def Method.in_arg (me : Method) (n t : String) : Method :=
  { me with iArgs := me.iArgs ++ [⟨n, t⟩] }

/-- Builder that appends an output argument declaration. -/
def Method.out_arg (me : Method) (n t : String) : Method :=
  { me with oArgs := me.oArgs ++ [⟨n, t⟩] }

/-- Represents a D-Bus interface: name-keyed maps of methods, signals and
properties plus annotations (per-interface user data is dropped). -/
structure Interface where
  name : String
  methods : List (String × Method)
  signals : List (String × Signal)
  properties : List (String × Property)
  anns : Annotations

/-- Builder function that adds a method to the interface. -/
def Interface.add_m (i : Interface) (m : Method) : Interface :=
  { i with methods := mapInsert m.name m i.methods }

/-- Builder function that adds a signal to the interface. -/
def Interface.add_s (i : Interface) (s : Signal) : Interface :=
  { i with signals := mapInsert s.name s i.signals }

/-- Builder function that adds a property to the interface. -/
def Interface.add_p (i : Interface) (p : Property) : Interface :=
  { i with properties := mapInsert p.name p i.properties }

/-- Builder function that adds an annotation to this interface. -/
def Interface.annotate (i : Interface) (n v : String) : Interface :=
  { i with anns := i.anns.insert n v }

/-- Builder function that adds an annotation that this entity is deprecated. -/
def Interface.deprecated (i : Interface) : Interface :=
  i.annotate "org.freedesktop.DBus.Deprecated" "true"

/-- Fresh interface descriptor under a name. -/
def new_interface (t : String) : Interface :=
  { name := t, methods := [], signals := [], properties := [], anns := ⟨[]⟩ }

/-- Cache of built-in interfaces, in order to share one descriptor between
the object paths that implement the same interface.  The mutex of the
source is a single critical section around lookup-or-build; sequentially
that is exactly this state-passing function. -/
structure IfaceCache where
  map : List (String × Interface)

/-- Fresh empty cache. -/
def IfaceCache.new : IfaceCache := ⟨[]⟩

/-- Lookup-or-build: invokes the builder on a fresh interface only when the
name is absent, stores the result and returns it; otherwise returns the
stored instance unchanged (models `IfaceCache::get` with
`entry().or_insert_with()`). -/
def IfaceCache.get (c : IfaceCache) (s : String) (f : Interface → Interface) :
    Interface × IfaceCache :=
  match mapGet s c.map with
  | some i => (i, c)
  | none =>
    let i := f (new_interface s)
    (i, ⟨mapInsert s i c.map⟩)

/-- A D-Bus object path: its absolute path name and its interfaces.  The
`ifacecache` back-reference of the source is threaded explicitly as a
state argument of the builder operations. -/
structure ObjectPath where
  name : String
  ifaces : List (String × Interface)

/-- Fresh object path with no interfaces (models `new_objectpath`). -/
def new_objectpath (n : String) : ObjectPath := { name := n, ifaces := [] }

/-- The builder of the standard properties interface passed to the cache
by `add_property_handler` (source lines 164-179): methods `Get`, `GetAll`
and `Set` with their fixed argument signatures. -/
def propsBuilder (i : Interface) : Interface :=
  ((i.add_m
      ((((new_method "Get" Handler.propGetH).in_arg "interface_name" "s").in_arg
          "property_name" "s").out_arg "value" "v")).add_m
      (((new_method "GetAll" Handler.propGetAllH).in_arg "interface_name" "s").out_arg
          "props" "a\x7bsv\x7d")).add_m
      ((((new_method "Set" Handler.propSetH).in_arg "interface_name" "s").in_arg
          "property_name" "s").in_arg "value" "v")

/-- Installs the standard properties interface unless one is already
present under that name (models `ObjectPath::add_property_handler`). -/
def ObjectPath.add_property_handler (self : ObjectPath) (cache : IfaceCache) :
    ObjectPath × IfaceCache :=
  if mapContains "org.freedesktop.DBus.Properties" self.ifaces then (self, cache)
  else
    let zc := cache.get "org.freedesktop.DBus.Properties" propsBuilder
    ({ self with ifaces := mapInsert zc.1.name zc.1 self.ifaces }, zc.2)

/-- Builder function that adds an interface to the object path; an
interface with properties first ensures the properties interface is
installed (models `ObjectPath::add`). -/
def ObjectPath.add (self : ObjectPath) (cache : IfaceCache) (m : Interface) :
    ObjectPath × IfaceCache :=
  let sc := if m.properties.isEmpty then (self, cache)
            else self.add_property_handler cache
  ({ sc.1 with ifaces := mapInsert m.name m sc.1.ifaces }, sc.2)

/-- Adds introspection support for this object path (models
`ObjectPath::introspectable`). -/
def ObjectPath.introspectable (self : ObjectPath) (cache : IfaceCache) :
    ObjectPath × IfaceCache :=
  let zc := cache.get "org.freedesktop.DBus.Introspectable" (fun i =>
    i.add_m ((new_method "Introspect" Handler.introspectH).out_arg "xml_data" "s"))
  ObjectPath.add self zc.2 zc.1

/-- Modelled from the spec: an interface name is a dotted,
protocol-qualified string; `IfaceName::from_slice` (external validation)
accepts such names.  We model acceptance as: nonempty and containing a
dot. -/
def ifaceNameValid (s : String) : Bool :=
  (decide (0 < strLen s)) && chHas s.data '.'

/-- Resolves an optional interface-name argument against this path's
interfaces (models `ObjectPath::get_iface`): a missing argument is
`InvalidArgument 0`, an unparsable name `InvalidArgument`, an unknown name
`NoSuchInterface`. -/
def ObjectPath.get_iface (self : ObjectPath) (i : Option String) :
    Except MethodErr Interface :=
  match i with
  | none => Except.error (MethodErr.invalidArg "0")
  | some s =>
    if ifaceNameValid s then
      optToExcept (mapGet s self.ifaces) (MethodErr.noInterface s)
    else Except.error (MethodErr.invalidArg s)

/-- Property `Get` handler (models `ObjectPath::prop_get`): resolve
interface and property, verify readability, reply with the value wrapped
as a variant. -/
def ObjectPath.prop_get (self : ObjectPath) (m : Message) :
    Except MethodErr (List Message) :=
  match self.get_iface (Message.get2 m).1 with
  | Except.error e => Except.error e
  | Except.ok iface =>
    match (Message.get2 m).2 with
    | none => Except.error (MethodErr.invalidArg "1")
    | some prop_name =>
      match mapGet prop_name iface.properties with
      | none => Except.error (MethodErr.noProperty prop_name)
      | some prop =>
        match prop.can_get with
        | Except.error e => Except.error e
        | Except.ok _ =>
          Except.ok [(m.method_return).appendArg (Arg.variant prop.value)]

/-- Modelled from the spec (`prop_append_dict` lives in `leaves.rs`, not
under `src/`): append each readable property keyed by name into a dict;
unreadable properties are silently skipped, not an error. -/
def prop_append_dict (props : List Property) : List (String × Arg) :=
  props.filterMap (fun p =>
    match p.can_get with
    | Except.ok _ => some (p.name, Arg.variant p.value)
    | Except.error _ => none)

/-- Property `GetAll` handler (models `ObjectPath::prop_get_all`). -/
def ObjectPath.prop_get_all (self : ObjectPath) (m : Message) :
    Except MethodErr (List Message) :=
  match self.get_iface (Message.get1 m) with
  | Except.error e => Except.error e
  | Except.ok iface =>
    Except.ok [(m.method_return).appendArg
      (Arg.dict (prop_append_dict (iface.properties.map Prod.snd)))]

/-- Property `Set` handler (models `ObjectPath::prop_set`): resolve
interface and property, verify writability, apply the write, return the
write handler's side-effect messages followed by the empty success
reply. -/
def ObjectPath.prop_set (self : ObjectPath) (m : Message) :
    Except MethodErr (List Message) :=
  match self.get_iface (Message.get2 m).1 with
  | Except.error e => Except.error e
  | Except.ok iface =>
    match (Message.get2 m).2 with
    | none => Except.error (MethodErr.invalidArg "1")
    | some prop_name =>
      match mapGet prop_name iface.properties with
      | none => Except.error (MethodErr.noProperty prop_name)
      | some prop =>
        match prop.can_set with
        | Except.error e => Except.error e
        | Except.ok _ => Except.ok (prop.setMsgs ++ [m.method_return])

/-- A collection of object paths (models `Tree`). -/
structure Tree where
  paths : List (String × ObjectPath)

/-- Fresh empty tree. -/
def Tree.new : Tree := ⟨[]⟩

/-- Builder function that adds an object path to this tree. -/
def Tree.add (t : Tree) (op : ObjectPath) : Tree :=
  ⟨mapInsert op.name op t.paths⟩

/-- Remove an object path from the tree, returning it when present. -/
def Tree.remove (t : Tree) (p : String) : Option ObjectPath × Tree :=
  (mapGet p t.paths, ⟨t.paths.filter (fun kv => !strEqB kv.1 p)⟩)

/-- Direct or transitive children of a path, by path-prefix structure
(models `Tree::children`). -/
def Tree.children (t : Tree) (o : ObjectPath) (direct_only : Bool) : List ObjectPath :=
  t.paths.filterMap (fun kv =>
    let k := kv.2.name
    let plen := strLen o.name + 1
    if chStarts o.name.data k.data = false then none
    else if strLen k ≤ plen then none
    else if strTakeOne (strDrop k (plen - 1)) ≠ "/" then none
    else if direct_only && chHas (strDrop k plen).data '/' then none
    else some kv.2)

/-- One rendered element of an introspection map entry (the body of the
fold in `introspect_map`, source lines 10-22). -/
def introspectItem (indent nm k params contents : String) : String :=
  indent ++ "<" ++ nm ++ " name=\"" ++ k ++ "\"" ++ params ++
    (if 0 < strLen contents then ">\n" ++ contents ++ indent ++ "</" ++ nm else "/") ++
    ">\n"

/-- Renders every entry of a name-keyed map with the entity's own
name/params/contents functions (models `introspect_map`). -/
def introspect_map {α : Type} (h : List (String × α))
    (nm : α → String) (pr : α → String) (ct : α → String) (indent : String) : String :=
  h.foldl (fun a kv => a ++ introspectItem indent (nm kv.2) kv.1 (pr kv.2) (ct kv.2)) ""

/-- Modelled from the spec: render argument declarations as self-closing
`<arg .../>` lines with the given direction attribute text. -/
def introspectArgs (args : List MethodArg) (indent : String) (dir : String) : String :=
  args.foldl
    (fun a ar => a ++ indent ++ "<arg name=\"" ++ ar.name ++ "\" type=\"" ++ ar.typ ++ "\"" ++ dir ++ "/>\n") ""

/-- Modelled from the spec: a method element's contents are its in-args,
its out-args, then its annotations. -/
def Method.xml_contents (me : Method) : String :=
  introspectArgs me.iArgs "      " " direction=\"in\"" ++
  introspectArgs me.oArgs "      " " direction=\"out\"" ++
  annsIntrospect me.anns "      "

/-- Modelled from the spec: a property element carries its type and access
as attributes. -/
def Property.xml_params (p : Property) : String :=
  " type=\"" ++ p.typ ++ "\" access=\"" ++
    (match p.rw with
     | Access.read => "read"
     | Access.write => "write"
     | Access.readWrite => "readwrite") ++ "\""

/-- Modelled from the spec: a property element's contents are its
annotations. -/
def Property.xml_contents (p : Property) : String :=
  annsIntrospect p.anns "      "

/-- Modelled from the spec: a signal element's contents are its args
(without direction) then its annotations. -/
def Signal.xml_contents (s : Signal) : String :=
  introspectArgs s.args "      " "" ++ annsIntrospect s.anns "      "

/-- An interface element's contents: all methods, then all properties,
then all signals, then annotations (source lines 73-83). -/
def Interface.xml_contents (i : Interface) : String :=
  introspect_map i.methods (fun _ => "method") (fun _ => "") Method.xml_contents "    " ++
  introspect_map i.properties (fun _ => "property") Property.xml_params Property.xml_contents "    " ++
  introspect_map i.signals (fun _ => "signal") (fun _ => "") Signal.xml_contents "    " ++
  annsIntrospect i.anns "    "

/-- Renders the full introspection document of a path: DOCTYPE, the root
node element with this path's interfaces, then one self-closing child node
element per direct child in the tree (models `ObjectPath::introspect`). -/
def ObjectPath.introspect (self : ObjectPath) (tree : Tree) : String :=
  let ifacestr := introspect_map self.ifaces (fun _ => "interface") (fun _ => "")
    Interface.xml_contents "  "
  let olen := strLen self.name + 1
  let childstr := (tree.children self true).foldl
    (fun na n => na ++ "  <node name=\"" ++ strDrop n.name olen ++ "\"/>\n") ""
  "<!DOCTYPE node PUBLIC \"-//freedesktop//DTD D-BUS Object Introspection 1.0//EN\" \"http://www.freedesktop.org/standards/dbus/1.0/introspect.dtd\">\n<node name=\"" ++
    self.name ++ "\">\n" ++ ifacestr ++ childstr ++ "</node>"

/-- Invokes a method body: the built-in handlers evaluate against the
tree/path context as in the source closures; a user handler sees the
message. -/
def Method.callOn (me : Method) (m : Message) (t : Tree) (p : ObjectPath)
    (_i : Interface) : Except MethodErr (List Message) :=
  match me.handler with
  | Handler.introspectH => Except.ok [(m.method_return).appendArg (Arg.str (p.introspect t))]
  | Handler.propGetH => p.prop_get m
  | Handler.propGetAllH => p.prop_get_all m
  | Handler.propSetH => p.prop_set m
  | Handler.user f => f m

/-- Resolves the message's interface and member to a method and invokes
it; a failed interface lookup yields `NoSuchInterface` with an empty-string
payload, a failed member lookup `NoSuchMethod` likewise (models
`ObjectPath::handle`, source lines 233-238). -/
def ObjectPath.handle (self : ObjectPath) (m : Message) (t : Tree) :
    Except MethodErr (List Message) :=
  match m.iface.bind (fun i => mapGet i self.ifaces) with
  | none => Except.error (MethodErr.noInterface "")
  | some i =>
    match m.member.bind (fun me => mapGet me i.methods) with
    | none => Except.error (MethodErr.noMethod "")
    | some me => Method.callOn me m t self i

/-- Dispatches a message (models `Tree::handle`): `ok none` when the
message is not a method call or its path has no matching node ("not
mine"); `ok (some replies)` otherwise, a structured error being converted
into one error reply.  `Except.error ()` models the
`CString::new(e.description()).unwrap()` panic, which fires exactly when
the error's description has an interior NUL. -/
def Tree.handle (t : Tree) (m : Message) : Except Unit (Option (List Message)) :=
  if m.msgType ≠ MessageType.methodCall then Except.ok none
  else
    match m.path with
    | none => Except.ok none
    | some p =>
      match mapGet p t.paths with
      | none => Except.ok none
      | some node =>
        match node.handle m t with
        | Except.ok v => Except.ok (some v)
        | Except.error e =>
          match cstring_new (MethodErr.description e) with
          | some d => Except.ok (some [m.errorReply (MethodErr.errorname e) d])
          | none => Except.error ()

/-- Modelled from the spec (the transport connection is external): a
transport call observable in a trace. -/
inductive ConnOp where
  | reg (p : String)
  | unreg (p : String)
  deriving DecidableEq

/-- Modelled from the spec: a transport-level error. -/
structure DBusError where
  name : String
  message : String
  deriving DecidableEq

/-- The registration loop of `Tree::set_registered` (source lines
278-296): walks the path keys; when enabling, a registration failure pops
and unregisters every path registered so far (most recent first) and
returns the error; when disabling, unregisters each path, ignoring
errors.  The connection is an oracle from path to optional failure; the
first component of the result is the trace of transport calls made. -/
def srGo (c : String → Option DBusError) (b : Bool) :
    List String → List String → List ConnOp → List ConnOp × Except DBusError Unit
  | [], _, ops => (ops, Except.ok ())
  | p :: ps, regd, ops =>
    if b then
      match c p with
      | none => srGo c b ps (p :: regd) (ops ++ [ConnOp.reg p])
      | some e => (ops ++ regd.map ConnOp.unreg, Except.error e)
    else srGo c b ps regd (ops ++ [ConnOp.unreg p])

/-- Registers or unregisters all object paths in the tree (models
`Tree::set_registered`). -/
def Tree.set_registered (t : Tree) (c : String → Option DBusError) (b : Bool) :
    List ConnOp × Except DBusError Unit :=
  srGo c b (t.paths.map Prod.fst) [] []

/-- Key-order relation between map entries, used to state that the
association lists of the model are sorted the way a `BTreeMap` keeps
them. -/
def ltKey {α : Type} (a b : String × α) : Prop := strLtB a.1 b.1 = true

instance {α : Type} : DecidableRel (@ltKey α) := fun a b => by
  unfold ltKey
  infer_instance

/-- Folds a sequence of `add` calls over an object path, threading the
cache (the builder-chain usage pattern of the source). -/
def addList (node : ObjectPath) (cache : IfaceCache) : List Interface → ObjectPath × IfaceCache
  | [] => (node, cache)
  | i :: is =>
    let nc := node.add cache i
    addList nc.1 nc.2 is

/-- A user interface with one method, for dispatch exhibits. -/
def ifaceX : Interface :=
  (new_interface "com.example.x").add_m
    (new_method "M" (Handler.user (fun m => Except.ok [m.method_return])))

/-- A node exposing `ifaceX`, for dispatch exhibits. -/
def node3 : ObjectPath := { name := "/n3", ifaces := [("com.example.x", ifaceX)] }

/-- Method call to `node3` naming an unknown interface. -/
def msg3a : Message :=
  { msgType := MessageType.methodCall, path := some "/n3", iface := some "no.such",
    member := some "M", args := [], errName := none }

/-- Method call to `node3` naming a known interface but unknown member. -/
def msg3b : Message :=
  { msgType := MessageType.methodCall, path := some "/n3", iface := some "com.example.x",
    member := some "Nope", args := [], errName := none }

/-- Method call to `node3` carrying no interface header at all. -/
def msg10 : Message :=
  { msgType := MessageType.methodCall, path := some "/n3", iface := none,
    member := some "M", args := [], errName := none }

/-- Interface with one readable and one write-only property, for the
property sub-protocol exhibits. -/
def propsIfaceEx : Interface :=
  ((new_interface "com.example.p").add_p (new_property "ReadMe" "i" (Arg.i32 7))).add_p
    ((new_property "WriteOnly" "i" (Arg.i32 0)).access Access.write)

/-- A node exposing `propsIfaceEx`. -/
def node4 : ObjectPath := { name := "/n4", ifaces := [("com.example.p", propsIfaceEx)] }

/-- Property `Get` call against `node4` for a given property name. -/
def msg4 (pn : String) : Message :=
  { msgType := MessageType.methodCall, path := some "/n4",
    iface := some "org.freedesktop.DBus.Properties", member := some "Get",
    args := [Arg.str "com.example.p", Arg.str pn], errName := none }

/-- Property `GetAll` call against `node4`. -/
def msg5 : Message :=
  { msgType := MessageType.methodCall, path := some "/n4",
    iface := some "org.freedesktop.DBus.Properties", member := some "GetAll",
    args := [Arg.str "com.example.p"], errName := none }

/-- Tree with three registered paths, for the registration exhibits. -/
def tree2 : Tree :=
  ((Tree.new.add (new_objectpath "/a")).add (new_objectpath "/b")).add (new_objectpath "/c")

/-- Transport failure returned by the exhibit connection. -/
def err2 : DBusError :=
  { name := "org.freedesktop.DBus.Error.ObjectPathInUse", message := "path in use" }

/-- Connection oracle that fails to register exactly the path `/b`. -/
def conn2 : String → Option DBusError :=
  fun p => if p = "/b" then some err2 else none

/-- A user interface carrying a property (triggers the automatic
properties-interface installation). -/
def ifaceWithProp : Interface :=
  (new_interface "com.example.wp").add_p (new_property "P" "i" (Arg.i32 0))

/-- Node that already gained the standard properties interface by adding
`ifaceWithProp`. -/
def nodeC6 : ObjectPath := ((new_objectpath "/x").add IfaceCache.new ifaceWithProp).1

/-- The cache state after building `nodeC6`. -/
def cacheC6 : IfaceCache := ((new_objectpath "/x").add IfaceCache.new ifaceWithProp).2

/-- A user interface that itself bears the standard properties-interface
name and has a property. -/
def userPropsIface : Interface :=
  (new_interface "org.freedesktop.DBus.Properties").add_p
    (new_property "P" "i" (Arg.i32 0))

/-- User handler that errors with a NUL-carrying description. -/
def nulIface (ifn : String) : Interface :=
  (new_interface ifn).add_m
    (new_method "Crash" (Handler.user (fun _ =>
      Except.error (MethodErr.custom "org.example.E" "bad\x00desc"))))

/-- Node whose only method errors with a NUL-carrying description. -/
def node1 : ObjectPath := { name := "/n1", ifaces := [("com.example.c1", nulIface "com.example.c1")] }

/-- Tree holding `node1`. -/
def tree1 : Tree := Tree.new.add node1

/-- Method call reaching the NUL-describing handler of `node1`. -/
def msg1 : Message :=
  { msgType := MessageType.methodCall, path := some "/n1", iface := some "com.example.c1",
    member := some "Crash", args := [], errName := none }

/-- A signal message, which dispatch must pass over. -/
def msgW1a : Message :=
  { msgType := MessageType.signalMsg, path := some "/n1", iface := some "com.example.c1",
    member := some "Crash", args := [], errName := none }

/-- Method call whose path is absent from `tree1`. -/
def msgW1b : Message :=
  { msgType := MessageType.methodCall, path := some "/zz", iface := some "com.example.c1",
    member := some "Crash", args := [], errName := none }

/-- Method call to `node1` naming an unknown interface (its error
description is NUL-free). -/
def msgW1e : Message :=
  { msgType := MessageType.methodCall, path := some "/n1", iface := some "zz.q",
    member := some "Crash", args := [], errName := none }

/-- Node for the fatality exhibits, with the NUL-describing handler. -/
def node8 : ObjectPath := { name := "/n8", ifaces := [("com.example.c8", nulIface "com.example.c8")] }

/-- Tree holding `node8`. -/
def tree8 : Tree := Tree.new.add node8

/-- Method call reaching the NUL-describing handler of `node8`. -/
def msg8 : Message :=
  { msgType := MessageType.methodCall, path := some "/n8", iface := some "com.example.c8",
    member := some "Crash", args := [], errName := none }

/-- Method call to `node8` naming a known interface but unknown member. -/
def msg8w : Message :=
  { msgType := MessageType.methodCall, path := some "/n8", iface := some "com.example.c8",
    member := some "Gone", args := [], errName := none }

/-- The user handler of the `/echo` scenario (its body is immaterial to
introspection; the source test uses `unimplemented!()`). -/
def echoHandler : Handler :=
  Handler.user (fun _ =>
    Except.error (MethodErr.custom "org.freedesktop.DBus.Error.Failed" "not implemented"))

/-- The `com.example.echo` interface of the introspection test: method
`Echo(request) -> (reply)`, read-only property `EchoCount : i`, deprecated
signal `Echoed(data)`. -/
def echoIface : Interface :=
  (((new_interface "com.example.echo").add_m
      (((new_method "Echo" echoHandler).in_arg "request" "s").out_arg "reply" "s")).add_p
      (new_property "EchoCount" "i" (Arg.i32 0))).add_s
      (((new_signal "Echoed").arg "data" "s").deprecated)

/-- The built-in introspection interface as the cache builds it. -/
def introIface : Interface :=
  (new_interface "org.freedesktop.DBus.Introspectable").add_m
    ((new_method "Introspect" Handler.introspectH).out_arg "xml_data" "s")

/-- The `/echo` object path of the introspection test: introspectable,
with the `com.example.echo` interface. -/
def echoBuild : ObjectPath × IfaceCache :=
  let pc := (new_objectpath "/echo").introspectable IfaceCache.new
  pc.1.add pc.2 echoIface

/-- The tree of the introspection test: only the child `/echo/subpath`. -/
def echoTree : Tree := Tree.new.add (new_objectpath "/echo/subpath")

/-- The reference introspection document of the source's
`test_introspection`, byte for byte. -/
def expectedEchoXml : String :=
  "<!DOCTYPE node PUBLIC \"-//freedesktop//DTD D-BUS Object Introspection 1.0//EN\" \"http://www.freedesktop.org/standards/dbus/1.0/introspect.dtd\">\n" ++
  "<node name=\"/echo\">\n" ++
  "  <interface name=\"com.example.echo\">\n" ++
  "    <method name=\"Echo\">\n" ++
  "      <arg name=\"request\" type=\"s\" direction=\"in\"/>\n" ++
  "      <arg name=\"reply\" type=\"s\" direction=\"out\"/>\n" ++
  "    </method>\n" ++
  "    <property name=\"EchoCount\" type=\"i\" access=\"read\"/>\n" ++
  "    <signal name=\"Echoed\">\n" ++
  "      <arg name=\"data\" type=\"s\"/>\n" ++
  "      <annotation name=\"org.freedesktop.DBus.Deprecated\" value=\"true\"/>\n" ++
  "    </signal>\n" ++
  "  </interface>\n" ++
  "  <interface name=\"org.freedesktop.DBus.Introspectable\">\n" ++
  "    <method name=\"Introspect\">\n" ++
  "      <arg name=\"xml_data\" type=\"s\" direction=\"out\"/>\n" ++
  "    </method>\n" ++
  "  </interface>\n" ++
  "  <interface name=\"org.freedesktop.DBus.Properties\">\n" ++
  "    <method name=\"Get\">\n" ++
  "      <arg name=\"interface_name\" type=\"s\" direction=\"in\"/>\n" ++
  "      <arg name=\"property_name\" type=\"s\" direction=\"in\"/>\n" ++
  "      <arg name=\"value\" type=\"v\" direction=\"out\"/>\n" ++
  "    </method>\n" ++
  "    <method name=\"GetAll\">\n" ++
  "      <arg name=\"interface_name\" type=\"s\" direction=\"in\"/>\n" ++
  "      <arg name=\"props\" type=\"a\x7bsv\x7d\" direction=\"out\"/>\n" ++
  "    </method>\n" ++
  "    <method name=\"Set\">\n" ++
  "      <arg name=\"interface_name\" type=\"s\" direction=\"in\"/>\n" ++
  "      <arg name=\"property_name\" type=\"s\" direction=\"in\"/>\n" ++
  "      <arg name=\"value\" type=\"v\" direction=\"in\"/>\n" ++
  "    </method>\n" ++
  "  </interface>\n" ++
  "  <node name=\"subpath\"/>\n" ++
  "</node>"

theorem chListLt_irrefl (l : List Char) : chListLt l l = false := by
  induction l with
  | nil => rfl
  | cons c cs ih => simp [chListLt, ih, lt_irrefl]

theorem chListLt_trans : ∀ {a b c : List Char},
    chListLt a b = true → chListLt b c = true → chListLt a c = true := by
  intro a
  induction a with
  | nil =>
    intro b c h1 h2
    cases b with
    | nil => exact absurd h1 (by simp [chListLt])
    | cons d ds =>
      cases c with
      | nil => exact absurd h2 (by simp [chListLt])
      | cons e es => simp [chListLt]
  | cons x xs ih =>
    intro b c h1 h2
    cases b with
    | nil => exact absurd h1 (by simp [chListLt])
    | cons d ds =>
      cases c with
      | nil => exact absurd h2 (by simp [chListLt])
      | cons e es =>
        simp only [chListLt, Bool.or_eq_true, Bool.and_eq_true, decide_eq_true_eq] at h1 h2 ⊢
        rcases h1 with h1 | ⟨rfl, h1t⟩
        · rcases h2 with h2 | ⟨rfl, h2t⟩
          · exact Or.inl (lt_trans h1 h2)
          · exact Or.inl h1
        · rcases h2 with h2 | ⟨rfl, h2t⟩
          · exact Or.inl h2
          · exact Or.inr ⟨rfl, ih h1t h2t⟩

theorem chListLt_conn : ∀ {a b : List Char},
    chListLt a b = false → chListLt b a = false → a = b := by
  intro a
  induction a with
  | nil =>
    intro b h1 _
    cases b with
    | nil => rfl
    | cons d ds => exact absurd h1 (by simp [chListLt])
  | cons x xs ih =>
    intro b h1 h2
    cases b with
    | nil => exact absurd h2 (by simp [chListLt])
    | cons d ds =>
      simp only [chListLt, Bool.or_eq_false_iff, Bool.and_eq_false_iff,
        decide_eq_false_iff_not, Bool.not_eq_true] at h1 h2
      have hxd : x = d := le_antisymm (not_lt.mp h2.1) (not_lt.mp h1.1)
      subst hxd
      rcases h1.2 with h | h
      · exact absurd rfl h
      · rcases h2.2 with h' | h'
        · exact absurd rfl h'
        · exact congrArg (List.cons x) (ih h h')

theorem strLtB_irrefl (s : String) : strLtB s s = false := chListLt_irrefl s.data

theorem strLtB_trans {a b c : String} (h1 : strLtB a b = true) (h2 : strLtB b c = true) :
    strLtB a c = true := chListLt_trans h1 h2

theorem strLtB_conn {a b : String} (h1 : strLtB a b = false) (h2 : strLtB b a = false) :
    a = b := by
  cases a with
  | mk da =>
    cases b with
    | mk db => exact congrArg String.mk (chListLt_conn h1 h2)

theorem strEqB_true_iff {a b : String} : strEqB a b = true ↔ a = b := by
  constructor
  · intro h
    simp only [strEqB, Bool.and_eq_true, Bool.not_eq_true'] at h
    exact strLtB_conn h.1 h.2
  · rintro rfl
    simp [strEqB, strLtB_irrefl]

theorem strEqB_refl (a : String) : strEqB a a = true := strEqB_true_iff.mpr rfl

theorem strEqB_false_of_ne {a b : String} (h : a ≠ b) : strEqB a b = false := by
  cases hx : strEqB a b with
  | false => rfl
  | true => exact absurd (strEqB_true_iff.mp hx) h

theorem ne_of_strLtB {a b : String} (h : strLtB a b = true) : a ≠ b := by
  rintro rfl
  rw [strLtB_irrefl] at h
  exact Bool.false_ne_true h

theorem mapGet_insert_self {α : Type} (k : String) (v : α) :
    ∀ l : List (String × α), mapGet k (mapInsert k v l) = some v := by
  intro l
  induction l with
  | nil => simp [mapGet, mapInsert, strEqB_refl]
  | cons kv t ih =>
    by_cases h1 : strLtB k kv.1 = true
    · simp [mapInsert, h1, mapGet, strEqB_refl]
    · by_cases h2 : strLtB kv.1 k = true
      · have hne : k ≠ kv.1 := fun he => ne_of_strLtB h2 he.symm
        simp [mapInsert, h1, h2, mapGet, strEqB_false_of_ne hne, ih]
      · simp [mapInsert, h1, h2, mapGet, strEqB_refl]

theorem mapGet_insert_ne {α : Type} {k k2 : String} (hne : k ≠ k2) (v : α) :
    ∀ l : List (String × α), mapGet k (mapInsert k2 v l) = mapGet k l := by
  intro l
  induction l with
  | nil => simp [mapGet, mapInsert, strEqB_false_of_ne hne]
  | cons kv t ih =>
    by_cases h1 : strLtB k2 kv.1 = true
    · simp [mapInsert, h1, mapGet, strEqB_false_of_ne hne]
    · by_cases h2 : strLtB kv.1 k2 = true
      · simp only [mapInsert, h1, h2, if_false, if_true, mapGet]
        by_cases h3 : strEqB k kv.1 = true
        · simp [h3]
        · simp [h3, ih]
      · have hk2 : kv.1 = k2 := strLtB_conn (by simpa using h2) (by simpa using h1)
        simp [mapInsert, h1, h2, mapGet, strEqB_false_of_ne hne, hk2, strLtB_irrefl]

theorem mem_mapInsert {α : Type} {k : String} {v : α} {x : String × α} :
    ∀ {l : List (String × α)}, x ∈ mapInsert k v l → x = (k, v) ∨ x ∈ l := by
  intro l
  induction l with
  | nil => simp [mapInsert]
  | cons kv t ih =>
    intro hx
    by_cases h1 : strLtB k kv.1 = true
    · simp only [mapInsert, h1, if_true] at hx
      rcases List.mem_cons.mp hx with hx | hx
      · exact Or.inl hx
      · exact Or.inr hx
    · by_cases h2 : strLtB kv.1 k = true
      · simp only [mapInsert, h1, h2, if_false, if_true] at hx
        rcases List.mem_cons.mp hx with hx | hx
        · exact Or.inr (by simp [hx])
        · rcases ih hx with hx | hx
          · exact Or.inl hx
          · exact Or.inr (List.mem_cons_of_mem _ hx)
      · simp only [mapInsert, h1, h2, if_false] at hx
        rcases List.mem_cons.mp hx with hx | hx
        · exact Or.inl hx
        · exact Or.inr (List.mem_cons_of_mem _ hx)

theorem pairwise_mapInsert {α : Type} {k : String} {v : α} :
    ∀ {l : List (String × α)}, List.Pairwise ltKey l →
      List.Pairwise ltKey (mapInsert k v l) := by
  intro l
  induction l with
  | nil => intro _; simp [mapInsert, List.Pairwise]
  | cons kv t ih =>
    intro h
    rcases List.pairwise_cons.mp h with ⟨hhead, htail⟩
    by_cases h1 : strLtB k kv.1 = true
    · simp only [mapInsert, h1, if_true]
      refine List.pairwise_cons.mpr ⟨?_, h⟩
      intro x hx
      rcases List.mem_cons.mp hx with hx | hx
      · rw [hx]; exact h1
      · exact strLtB_trans h1 (hhead x hx)
    · by_cases h2 : strLtB kv.1 k = true
      · simp only [mapInsert, h1, h2, if_false, if_true]
        refine List.pairwise_cons.mpr ⟨?_, ih htail⟩
        intro x hx
        rcases mem_mapInsert hx with hx | hx
        · rw [hx]; exact h2
        · exact hhead x hx
      · have hk : kv.1 = k := strLtB_conn (by simpa using h2) (by simpa using h1)
        simp only [mapInsert, h1, h2, if_false]
        refine List.pairwise_cons.mpr ⟨?_, htail⟩
        intro x hx
        have := hhead x hx
        unfold ltKey at this ⊢
        rwa [hk] at this

theorem countKey_cons {α : Type} (k : String) (kv : String × α) (t : List (String × α)) :
    countKey k (kv :: t) = (if strEqB kv.1 k then 1 else 0) + countKey k t := by
  by_cases h : strEqB kv.1 k = true
  · simp [countKey, List.filter, h, Nat.add_comm]
  · simp only [Bool.not_eq_true] at h
    simp [countKey, List.filter, h]

theorem countKey_le_one {α : Type} (k : String) :
    ∀ {l : List (String × α)}, List.Pairwise ltKey l → countKey k l ≤ 1 := by
  intro l
  induction l with
  | nil => intro _; simp [countKey]
  | cons kv t ih =>
    intro h
    rcases List.pairwise_cons.mp h with ⟨hhead, htail⟩
    rw [countKey_cons]
    by_cases he : strEqB kv.1 k = true
    · have hk : kv.1 = k := strEqB_true_iff.mp he
      have hzero : countKey k t = 0 := by
        have : t.filter (fun x => strEqB x.1 k) = [] := by
          apply List.filter_eq_nil_iff.mpr
          intro x hx
          have hlt := hhead x hx
          unfold ltKey at hlt
          rw [hk] at hlt
          have hne : x.1 ≠ k := fun hxe => ne_of_strLtB hlt hxe.symm
          simp [strEqB_false_of_ne hne]
        simp [countKey, this]
      simp [he, hzero]
    · simp only [Bool.not_eq_true] at he
      simpa [he] using ih htail

theorem srGo_disable (c : String → Option DBusError) :
    ∀ (ps : List String) (regd : List String) (ops : List ConnOp),
      srGo c false ps regd ops = (ops ++ ps.map ConnOp.unreg, Except.ok ()) := by
  intro ps
  induction ps with
  | nil => intro regd ops; simp [srGo]
  | cons p t ih =>
    intro regd ops
    simp [srGo, ih]

theorem srGo_all_ok (c : String → Option DBusError) :
    ∀ (ps : List String), (∀ p ∈ ps, c p = none) →
      ∀ (regd : List String) (ops : List ConnOp),
        srGo c true ps regd ops = (ops ++ ps.map ConnOp.reg, Except.ok ()) := by
  intro ps
  induction ps with
  | nil => intro _ regd ops; simp [srGo]
  | cons p t ih =>
    intro h regd ops
    have hp : c p = none := h p (List.mem_cons_self p t)
    simp [srGo, hp, ih (fun q hq => h q (List.mem_cons_of_mem p hq))]

theorem srGo_fail (c : String → Option DBusError) :
    ∀ (good : List String) (bad : String) (rest : List String) (e : DBusError),
      (∀ p ∈ good, c p = none) → c bad = some e →
      ∀ (regd : List String) (ops : List ConnOp),
        srGo c true (good ++ bad :: rest) regd ops
          = (ops ++ good.map ConnOp.reg ++ (good.reverse ++ regd).map ConnOp.unreg,
             Except.error e) := by
  intro good
  induction good with
  | nil =>
    intro bad rest e _ hb regd ops
    simp [srGo, hb]
  | cons p t ih =>
    intro bad rest e hg hb regd ops
    have hp : c p = none := hg p (List.mem_cons_self p t)
    have hrec := ih bad rest e (fun q hq => hg q (List.mem_cons_of_mem p hq)) hb
      (p :: regd) (ops ++ [ConnOp.reg p])
    simp only [List.cons_append, srGo, hp, if_true] at hrec ⊢
    simp only [List.append_eq]
    rw [hrec]
    simp

/-- Claim C2: `set_registered(enable=true)` registers each path in the
tree's iteration order; when the registration of `bad` fails after the
paths of `good` succeeded, exactly the paths of `good` are unregistered,
in reverse order of registration, and the original error is returned;
with all registrations succeeding the whole key list is registered; with
`enable=false` every path is unregistered (unregistration has no failure
channel) and the call returns success. -/
theorem set_registered_spec (t : Tree) (c : String → Option DBusError) :
    (∀ good bad rest e, t.paths.map Prod.fst = good ++ bad :: rest →
        (∀ p ∈ good, c p = none) → c bad = some e →
        t.set_registered c true
          = (good.map ConnOp.reg ++ good.reverse.map ConnOp.unreg, Except.error e)) ∧
    ((∀ p ∈ t.paths.map Prod.fst, c p = none) →
        t.set_registered c true = ((t.paths.map Prod.fst).map ConnOp.reg, Except.ok ())) ∧
    t.set_registered c false = ((t.paths.map Prod.fst).map ConnOp.unreg, Except.ok ()) := by
  refine ⟨?_, ?_, ?_⟩
  · intro good bad rest e hkeys hg hb
    unfold Tree.set_registered
    rw [hkeys, srGo_fail c good bad rest e hg hb [] []]
    simp
  · intro h
    unfold Tree.set_registered
    rw [srGo_all_ok c _ h [] []]
    simp
  · unfold Tree.set_registered
    rw [srGo_disable c _ [] []]
    simp

/-- Witness for claim C2: on the concrete three-path tree whose middle
path fails to register, only `/a` is registered and it is rolled back
before the error returns; disabling unregisters all three paths. -/
theorem set_registered_spec_w :
    tree2.set_registered conn2 true
      = ([ConnOp.reg "/a", ConnOp.unreg "/a"], Except.error err2) ∧
    tree2.set_registered conn2 false
      = ([ConnOp.unreg "/a", ConnOp.unreg "/b", ConnOp.unreg "/c"], Except.ok ()) :=
  ⟨(set_registered_spec tree2 conn2).1 ["/a"] "/b" ["/c"] err2 rfl (by decide) rfl,
   (set_registered_spec tree2 conn2).2.2⟩

/-- Claim C3: a method call whose interface header names an interface the
node does not have yields the structured error `NoSuchInterface`; one
whose member is not among the resolved interface's methods yields
`NoSuchMethod`; both are returned error values of `ObjectPath.handle`. -/
theorem handle_unknown_member (node : ObjectPath) (t : Tree) (m : Message) :
    (∀ iname, m.iface = some iname → mapGet iname node.ifaces = none →
        node.handle m t = Except.error (MethodErr.noInterface "")) ∧
    (∀ iname ifc, m.iface = some iname → mapGet iname node.ifaces = some ifc →
        m.member.bind (fun me => mapGet me ifc.methods) = none →
        node.handle m t = Except.error (MethodErr.noMethod "")) := by
  constructor
  · intro iname h1 h2
    simp [ObjectPath.handle, h1, h2]
  · intro iname ifc h1 h2 h3
    simp [ObjectPath.handle, h1, h2, h3]

/-- Witness for claim C3: on the concrete `node3`, an unknown interface
yields `NoSuchInterface` and a known interface with an unknown member
yields `NoSuchMethod`. -/
theorem handle_unknown_member_w :
    node3.handle msg3a Tree.new = Except.error (MethodErr.noInterface "") ∧
    node3.handle msg3b Tree.new = Except.error (MethodErr.noMethod "") :=
  ⟨(handle_unknown_member node3 Tree.new msg3a).1 "no.such" rfl rfl,
   (handle_unknown_member node3 Tree.new msg3b).2 "com.example.x" ifaceX rfl rfl rfl⟩

/-- Claim C10: a method call carrying no interface header at all yields
`NoSuchInterface` whose payload is the empty string (the same error kind
as an unknown interface, not `InvalidArgument`). -/
theorem handle_no_iface_header (node : ObjectPath) (t : Tree) (m : Message)
    (h : m.iface = none) :
    node.handle m t = Except.error (MethodErr.noInterface "") := by
  simp [ObjectPath.handle, h]

/-- Witness for claim C10: the concrete header-less method call to
`node3`. -/
theorem handle_no_iface_header_w :
    node3.handle msg10 Tree.new = Except.error (MethodErr.noInterface "") :=
  handle_no_iface_header node3 Tree.new msg10 rfl

/-- Claim C9: a cache lookup on an absent name invokes the build function
on a fresh interface, stores the result and returns it; a lookup on a
present name returns the stored instance and leaves the cache unchanged
(independently of the build function, which is therefore not invoked);
hence a second lookup for the same name returns exactly the instance the
first one produced, whatever builder it passes. -/
theorem cache_get_spec (c : IfaceCache) (s : String) (f : Interface → Interface) :
    (mapGet s c.map = none →
        (c.get s f).1 = f (new_interface s) ∧
        (c.get s f).2.map = mapInsert s (f (new_interface s)) c.map) ∧
    (∀ i, mapGet s c.map = some i → (c.get s f).1 = i ∧ (c.get s f).2 = c) ∧
    (∀ g, ((c.get s f).2.get s g).1 = (c.get s f).1 ∧
        ((c.get s f).2.get s g).2 = (c.get s f).2) := by
  refine ⟨?_, ?_, ?_⟩
  · intro h
    simp [IfaceCache.get, h]
  · intro i h
    simp [IfaceCache.get, h]
  · intro g
    cases h : mapGet s c.map with
    | some i => simp [IfaceCache.get, h]
    | none => simp [IfaceCache.get, h, mapGet_insert_self]

/-- Witness for claim C9: building the properties interface in a fresh
cache runs the builder, and a second request (with a different builder)
returns the identical stored instance. -/
theorem cache_get_spec_w :
    (IfaceCache.new.get "org.freedesktop.DBus.Properties" propsBuilder).1
      = propsBuilder (new_interface "org.freedesktop.DBus.Properties") ∧
    ((IfaceCache.new.get "org.freedesktop.DBus.Properties" propsBuilder).2.get
        "org.freedesktop.DBus.Properties" (fun i => i)).1
      = (IfaceCache.new.get "org.freedesktop.DBus.Properties" propsBuilder).1 :=
  ⟨((cache_get_spec IfaceCache.new "org.freedesktop.DBus.Properties" propsBuilder).1 rfl).1,
   ((cache_get_spec IfaceCache.new "org.freedesktop.DBus.Properties" propsBuilder).2.2
      (fun i => i)).1⟩

/-- Counterexample to claim C1 as stated: on the concrete method call
`msg1` whose path and interface resolve in `tree1`, the node's handle
returns a structured error, yet `Tree.handle` does not return `Some` of
an error reply — it hits the modelled
`CString::new(e.description()).unwrap()` panic, because the error's
description carries an interior NUL. -/
theorem dispatch_nul_cex :
    msg1.msgType = MessageType.methodCall ∧
    msg1.path = some "/n1" ∧
    mapContains "/n1" tree1.paths = true ∧
    node1.handle msg1 tree1
      = Except.error (MethodErr.custom "org.example.E" "bad\x00desc") ∧
    tree1.handle msg1 = Except.error () :=
  ⟨rfl, rfl, rfl, rfl, rfl⟩

/-- Claim C1 (amended): `Tree.handle` returns `ok none` on a non-method
call, on a message without a path and on a path absent from the tree; on
a resolved node it wraps the node handle's replies in `some`, and it
converts a structured error into exactly one error reply built from the
error's name and description — provided that description has no interior
NUL byte (otherwise the `CString::new(..).unwrap()` conversion panics). -/
theorem dispatch_shape (t : Tree) (m : Message) :
    (m.msgType ≠ MessageType.methodCall → t.handle m = Except.ok none) ∧
    (m.path = none → t.handle m = Except.ok none) ∧
    (∀ p, m.path = some p → mapGet p t.paths = none → t.handle m = Except.ok none) ∧
    (∀ p node v, m.msgType = MessageType.methodCall → m.path = some p →
        mapGet p t.paths = some node → node.handle m t = Except.ok v →
        t.handle m = Except.ok (some v)) ∧
    (∀ p node e, m.msgType = MessageType.methodCall → m.path = some p →
        mapGet p t.paths = some node → node.handle m t = Except.error e →
        chHas (MethodErr.description e).data nulChar = false →
        t.handle m
          = Except.ok (some [m.errorReply (MethodErr.errorname e) (MethodErr.description e)])) := by
  refine ⟨?_, ?_, ?_, ?_, ?_⟩
  · intro h
    simp [Tree.handle, h]
  · intro h
    by_cases ht : m.msgType = MessageType.methodCall
    · simp [Tree.handle, ht, h]
    · simp [Tree.handle, ht]
  · intro p hp hget
    by_cases ht : m.msgType = MessageType.methodCall
    · simp [Tree.handle, ht, hp, hget]
    · simp [Tree.handle, ht]
  · intro p node v ht hp hget hh
    simp [Tree.handle, ht, hp, hget, hh]
  · intro p node e ht hp hget hh hnul
    simp [Tree.handle, ht, hp, hget, hh, cstring_new, hnul]

/-- Witness for claim C1 (amended): a signal is passed over, a method
call to an absent path is passed over, and a NUL-free structured error is
converted into one error reply naming the error and its description. -/
theorem dispatch_shape_w :
    tree1.handle msgW1a = Except.ok none ∧
    tree1.handle msgW1b = Except.ok none ∧
    tree1.handle msgW1e
      = Except.ok (some [msgW1e.errorReply "org.freedesktop.DBus.Error.UnknownInterface"
          "Interface  not found"]) :=
  ⟨(dispatch_shape tree1 msgW1a).1 (by decide),
   (dispatch_shape tree1 msgW1b).2.2.1 "/zz" rfl rfl,
   (dispatch_shape tree1 msgW1e).2.2.2.2 "/n1" node1 (MethodErr.noInterface "")
     rfl rfl rfl rfl rfl⟩

/-- Counterexample to claim C8 as stated: a structured error whose
description carries an interior NUL escapes `Tree.handle` as the modelled
panic (`Except.error ()`) instead of being converted into an error-reply
message — so the conversion is not total over every possible error name
and description. -/
theorem dispatch_fatal_cex :
    msg8.msgType = MessageType.methodCall ∧
    mapContains "/n8" tree8.paths = true ∧
    node8.handle msg8 tree8
      = Except.error (MethodErr.custom "org.example.E" "bad\x00desc") ∧
    tree8.handle msg8 = Except.error () :=
  ⟨rfl, rfl, rfl, rfl⟩

/-- Claim C8 (amended): every structured error produced under dispatch is
converted by `Tree.handle` into a single well-formed error reply provided
its description has no interior NUL byte; conversely the only way the
modelled panic can occur is a dispatched structured error whose
description does contain a NUL — no other condition in the layer is
fatal. -/
theorem dispatch_no_fatal (t : Tree) (m : Message) :
    (∀ p node e, m.msgType = MessageType.methodCall → m.path = some p →
        mapGet p t.paths = some node → node.handle m t = Except.error e →
        chHas (MethodErr.description e).data nulChar = false →
        t.handle m
          = Except.ok (some [m.errorReply (MethodErr.errorname e) (MethodErr.description e)])) ∧
    (t.handle m = Except.error () →
        ∃ p node e, m.path = some p ∧ mapGet p t.paths = some node ∧
          node.handle m t = Except.error e ∧
          chHas (MethodErr.description e).data nulChar = true) := by
  constructor
  · intro p node e ht hp hget hh hnul
    simp [Tree.handle, ht, hp, hget, hh, cstring_new, hnul]
  · intro hpanic
    by_cases ht : m.msgType = MessageType.methodCall
    · cases hp : m.path with
      | none => simp [Tree.handle, ht, hp] at hpanic
      | some p =>
        cases hget : mapGet p t.paths with
        | none => simp [Tree.handle, ht, hp, hget] at hpanic
        | some node =>
          cases hh : node.handle m t with
          | ok v => simp [Tree.handle, ht, hp, hget, hh] at hpanic
          | error e =>
            cases hnul : chHas (MethodErr.description e).data nulChar with
            | false => simp [Tree.handle, ht, hp, hget, hh, cstring_new, hnul] at hpanic
            | true => exact ⟨p, node, e, rfl, hget, hh, hnul⟩
    · simp [Tree.handle, ht] at hpanic

/-- Witness for claim C8 (amended): on `tree8`, the NUL-free
`NoSuchMethod` error raised for an unknown member is converted into one
well-formed error reply. -/
theorem dispatch_no_fatal_w :
    tree8.handle msg8w
      = Except.ok (some [msg8w.errorReply "org.freedesktop.DBus.Error.UnknownMethod"
          "Method  not found"]) :=
  (dispatch_no_fatal tree8 msg8w).1 "/n8" node8 (MethodErr.noMethod "")
    rfl rfl rfl rfl rfl

/-- Claim C4: with a resolvable interface name, property `Get` on an
absent property name errors `NoSuchProperty`; on a write-only property it
errors `PropertyNotReadable`; on a readable property it returns exactly
one method-return message with the property's current value appended as a
variant. -/
theorem prop_get_spec (self : ObjectPath) (m : Message) (iname : String) (ifc : Interface)
    (h1 : (Message.get2 m).1 = some iname)
    (h2 : ifaceNameValid iname = true)
    (h3 : mapGet iname self.ifaces = some ifc) :
    (∀ pname, (Message.get2 m).2 = some pname → mapGet pname ifc.properties = none →
        self.prop_get m = Except.error (MethodErr.noProperty pname)) ∧
    (∀ pname prop, (Message.get2 m).2 = some pname →
        mapGet pname ifc.properties = some prop → prop.rw = Access.write →
        self.prop_get m = Except.error (MethodErr.propertyNotReadable prop.name)) ∧
    (∀ pname prop, (Message.get2 m).2 = some pname →
        mapGet pname ifc.properties = some prop → prop.rw ≠ Access.write →
        self.prop_get m
          = Except.ok [(m.method_return).appendArg (Arg.variant prop.value)]) := by
  refine ⟨?_, ?_, ?_⟩
  · intro pname hp hget
    simp [ObjectPath.prop_get, ObjectPath.get_iface, h1, h2, h3, optToExcept, hp, hget,
      Except.bind]
  · intro pname prop hp hget hrw
    simp [ObjectPath.prop_get, ObjectPath.get_iface, h1, h2, h3, optToExcept, hp, hget,
      Property.can_get, hrw, Except.bind]
  · intro pname prop hp hget hrw
    cases ha : prop.rw with
    | write => exact absurd ha hrw
    | read =>
      simp [ObjectPath.prop_get, ObjectPath.get_iface, h1, h2, h3, optToExcept, hp, hget,
        Property.can_get, ha, Except.bind]
    | readWrite =>
      simp [ObjectPath.prop_get, ObjectPath.get_iface, h1, h2, h3, optToExcept, hp, hget,
        Property.can_get, ha, Except.bind]

/-- Witness for claim C4: on `node4`, `Get` of an absent name, of the
write-only property and of the readable property with value 7. -/
theorem prop_get_spec_w :
    node4.prop_get (msg4 "Nope") = Except.error (MethodErr.noProperty "Nope") ∧
    node4.prop_get (msg4 "WriteOnly")
      = Except.error (MethodErr.propertyNotReadable "WriteOnly") ∧
    node4.prop_get (msg4 "ReadMe")
      = Except.ok [((msg4 "ReadMe").method_return).appendArg (Arg.variant (Arg.i32 7))] :=
  ⟨(prop_get_spec node4 (msg4 "Nope") "com.example.p" propsIfaceEx rfl rfl rfl).1
      "Nope" rfl rfl,
   (prop_get_spec node4 (msg4 "WriteOnly") "com.example.p" propsIfaceEx rfl rfl rfl).2.1
      "WriteOnly" ((new_property "WriteOnly" "i" (Arg.i32 0)).access Access.write) rfl rfl rfl,
   (prop_get_spec node4 (msg4 "ReadMe") "com.example.p" propsIfaceEx rfl rfl rfl).2.2
      "ReadMe" (new_property "ReadMe" "i" (Arg.i32 7)) rfl rfl (by decide)⟩

/-- Claim C5: with a resolvable interface name, property `GetAll` returns
exactly one method-return message carrying a dict, and that dict has an
entry `(name, variant value)` precisely for the readable properties of
the interface — unreadable properties contribute nothing and cause no
error. -/
theorem prop_get_all_spec (self : ObjectPath) (m : Message) (iname : String) (ifc : Interface)
    (h1 : Message.get1 m = some iname)
    (h2 : ifaceNameValid iname = true)
    (h3 : mapGet iname self.ifaces = some ifc) :
    self.prop_get_all m
      = Except.ok [(m.method_return).appendArg
          (Arg.dict (prop_append_dict (ifc.properties.map Prod.snd)))] ∧
    (∀ n v, (n, v) ∈ prop_append_dict (ifc.properties.map Prod.snd) ↔
        ∃ p ∈ ifc.properties.map Prod.snd,
          p.can_get = Except.ok () ∧ n = p.name ∧ v = Arg.variant p.value) := by
  constructor
  · simp [ObjectPath.prop_get_all, ObjectPath.get_iface, h1, h2, h3, optToExcept, Except.bind]
  · intro n v
    constructor
    · intro hmem
      rcases List.mem_filterMap.mp hmem with ⟨p, hp, hf⟩
      cases hc : p.can_get with
      | ok u =>
        cases u
        rw [hc] at hf
        simp only [Option.some.injEq, Prod.mk.injEq] at hf
        exact ⟨p, hp, hc, hf.1.symm, hf.2.symm⟩
      | error e2 =>
        rw [hc] at hf
        simp at hf
    · rintro ⟨p, hp, hcg, rfl, rfl⟩
      exact List.mem_filterMap.mpr ⟨p, hp, by simp [hcg]⟩

/-- Witness for claim C5: `GetAll` on `node4`'s interface with one
readable and one write-only property returns a dict holding only the
readable entry. -/
theorem prop_get_all_spec_w :
    node4.prop_get_all msg5
      = Except.ok [(msg5.method_return).appendArg
          (Arg.dict [("ReadMe", Arg.variant (Arg.i32 7))])] :=
  (prop_get_all_spec node4 msg5 "com.example.p" propsIfaceEx rfl rfl rfl).1

theorem add_property_handler_pairwise (node : ObjectPath) (cache : IfaceCache)
    (h : List.Pairwise ltKey node.ifaces) :
    List.Pairwise ltKey ((node.add_property_handler cache).1.ifaces) := by
  unfold ObjectPath.add_property_handler
  by_cases hc : mapContains "org.freedesktop.DBus.Properties" node.ifaces
  · simp [hc, h]
  · simp [hc, pairwise_mapInsert h]

theorem add_pairwise (node : ObjectPath) (cache : IfaceCache) (ifc : Interface)
    (h : List.Pairwise ltKey node.ifaces) :
    List.Pairwise ltKey ((node.add cache ifc).1.ifaces) := by
  unfold ObjectPath.add
  by_cases he : ifc.properties.isEmpty
  · simp [he, pairwise_mapInsert h]
  · simp [he, pairwise_mapInsert (add_property_handler_pairwise node cache h)]

theorem addList_pairwise (ifcs : List Interface) :
    ∀ (node : ObjectPath) (cache : IfaceCache), List.Pairwise ltKey node.ifaces →
      List.Pairwise ltKey ((addList node cache ifcs).1.ifaces) := by
  induction ifcs with
  | nil => intro node cache h; simpa [addList] using h
  | cons i is ih =>
    intro node cache h
    simp only [addList]
    exact ih _ _ (add_pairwise node cache i h)

/-- Counterexample to claim C6 as stated: `nodeC6` already carries the
standard properties interface; adding the property-bearing descriptor
`userPropsIface`, which itself bears the name
`org.freedesktop.DBus.Properties`, does not leave the node's entry for
that name unchanged — the final `insert` of `ObjectPath::add` overwrites
the installed descriptor with the user one. -/
theorem props_overwrite_cex :
    userPropsIface.properties ≠ [] ∧
    mapContains "org.freedesktop.DBus.Properties" nodeC6.ifaces = true ∧
    mapGet "org.freedesktop.DBus.Properties" ((nodeC6.add cacheC6 userPropsIface).1.ifaces)
      ≠ mapGet "org.freedesktop.DBus.Properties" nodeC6.ifaces := by
  refine ⟨?_, rfl, ?_⟩
  · intro h
    exact List.noConfusion h
  · intro h
    have h2 : (0 : Nat) = 3 :=
      congrArg (fun o : Option Interface =>
        Option.elim o 0 (fun i => List.length (Interface.methods i))) h
    exact absurd h2 (by decide)

/-- Claim C6 (amended): adding a property-bearing interface descriptor
not itself named `org.freedesktop.DBus.Properties` installs the standard
properties interface when absent (under a cache whose stored descriptor
carries its key as name) and leaves the entry for that name unchanged
when present; a descriptor bearing that very name instead overwrites the
entry, as the counterexample shows.  In every case the name is keyed at
most once over any sequence of adds. -/
theorem props_install_amended (node : ObjectPath) (cache : IfaceCache) (ifc : Interface)
    (hp : ifc.properties ≠ [])
    (hn : ifc.name ≠ "org.freedesktop.DBus.Properties")
    (hcache : (cache.get "org.freedesktop.DBus.Properties" propsBuilder).1.name
        = "org.freedesktop.DBus.Properties") :
    (mapContains "org.freedesktop.DBus.Properties" node.ifaces = true →
        mapGet "org.freedesktop.DBus.Properties" ((node.add cache ifc).1.ifaces)
          = mapGet "org.freedesktop.DBus.Properties" node.ifaces) ∧
    (mapContains "org.freedesktop.DBus.Properties" node.ifaces = false →
        mapGet "org.freedesktop.DBus.Properties" ((node.add cache ifc).1.ifaces)
          = some (cache.get "org.freedesktop.DBus.Properties" propsBuilder).1) ∧
    (∀ ifcs : List Interface, List.Pairwise ltKey node.ifaces →
        countKey "org.freedesktop.DBus.Properties" ((addList node cache ifcs).1.ifaces) ≤ 1) := by
  have hne : ifc.properties.isEmpty = false := by
    rcases hcp : ifc.properties with _ | ⟨a, l⟩
    · exact absurd hcp hp
    · rfl
  refine ⟨?_, ?_, ?_⟩
  · intro hcont
    simp [ObjectPath.add, hne, ObjectPath.add_property_handler, hcont,
      mapGet_insert_ne (Ne.symm hn)]
  · intro hcont
    simp [ObjectPath.add, hne, ObjectPath.add_property_handler, hcont,
      mapGet_insert_ne (Ne.symm hn), hcache, mapGet_insert_self]
  · intro ifcs hsort
    exact countKey_le_one _ (addList_pairwise ifcs node cache hsort)

/-- Witness for claim C6 (amended): adding the property-bearing
`ifaceWithProp` to a fresh node installs the cache-built standard
properties interface, and repeating the add keeps the name keyed at most
once. -/
theorem props_install_amended_w :
    mapGet "org.freedesktop.DBus.Properties"
        (((new_objectpath "/w6").add IfaceCache.new ifaceWithProp).1.ifaces)
      = some (IfaceCache.new.get "org.freedesktop.DBus.Properties" propsBuilder).1 ∧
    countKey "org.freedesktop.DBus.Properties"
        ((addList (new_objectpath "/w6") IfaceCache.new
            [ifaceWithProp, ifaceWithProp]).1.ifaces) ≤ 1 :=
  ⟨(props_install_amended (new_objectpath "/w6") IfaceCache.new ifaceWithProp
      (fun h => List.noConfusion h) (by decide) rfl).2.1 rfl,
   (props_install_amended (new_objectpath "/w6") IfaceCache.new ifaceWithProp
      (fun h => List.noConfusion h) (by decide) rfl).2.2
      [ifaceWithProp, ifaceWithProp] List.Pairwise.nil⟩

set_option maxRecDepth 100000 in
/-- Claim C7: the concrete `/echo` scenario of the source's
`test_introspection` — an introspectable node with interface
`com.example.echo` (method, read-only property, deprecated signal) and a
direct child `/echo/subpath` — renders exactly the reference
DOCTYPE-qualified document, with methods, then properties, then signals,
then annotations inside each interface element, and one self-closing
child node element named by the path suffix. -/
theorem introspect_echo_scenario : echoBuild.1.introspect echoTree = expectedEchoXml := by
  have hb : echoBuild.1.introspect echoTree
      = "<!DOCTYPE node PUBLIC \"-//freedesktop//DTD D-BUS Object Introspection 1.0//EN\" \"http://www.freedesktop.org/standards/dbus/1.0/introspect.dtd\">\n<node name=\"" ++
          echoBuild.1.name ++ "\">\n" ++
          introspect_map echoBuild.1.ifaces (fun _ => "interface") (fun _ => "")
            Interface.xml_contents "  " ++
          (echoTree.children echoBuild.1 true).foldl
            (fun na n => na ++ "  <node name=\"" ++
              strDrop n.name (strLen echoBuild.1.name + 1) ++ "\"/>\n") "" ++
          "</node>" := rfl
  have hifs : introspect_map echoBuild.1.ifaces (fun _ => "interface") (fun _ => "")
        Interface.xml_contents "  "
      = "" ++ introspectItem "  " "interface" "com.example.echo" ""
            (Interface.xml_contents echoIface) ++
          introspectItem "  " "interface" "org.freedesktop.DBus.Introspectable" ""
            (Interface.xml_contents introIface) ++
          introspectItem "  " "interface" "org.freedesktop.DBus.Properties" ""
            (Interface.xml_contents
              (propsBuilder (new_interface "org.freedesktop.DBus.Properties"))) := rfl
  have hch : (echoTree.children echoBuild.1 true).foldl
        (fun na n => na ++ "  <node name=\"" ++
          strDrop n.name (strLen echoBuild.1.name + 1) ++ "\"/>\n") ""
      = "  <node name=\"subpath\"/>\n" := by decide
  have hE : introspectItem "  " "interface" "com.example.echo" ""
        (Interface.xml_contents echoIface)
      = "  <interface name=\"com.example.echo\">\n" ++
        "    <method name=\"Echo\">\n" ++
        "      <arg name=\"request\" type=\"s\" direction=\"in\"/>\n" ++
        "      <arg name=\"reply\" type=\"s\" direction=\"out\"/>\n" ++
        "    </method>\n" ++
        "    <property name=\"EchoCount\" type=\"i\" access=\"read\"/>\n" ++
        "    <signal name=\"Echoed\">\n" ++
        "      <arg name=\"data\" type=\"s\"/>\n" ++
        "      <annotation name=\"org.freedesktop.DBus.Deprecated\" value=\"true\"/>\n" ++
        "    </signal>\n" ++
        "  </interface>\n" := by decide
  have hI : introspectItem "  " "interface" "org.freedesktop.DBus.Introspectable" ""
        (Interface.xml_contents introIface)
      = "  <interface name=\"org.freedesktop.DBus.Introspectable\">\n" ++
        "    <method name=\"Introspect\">\n" ++
        "      <arg name=\"xml_data\" type=\"s\" direction=\"out\"/>\n" ++
        "    </method>\n" ++
        "  </interface>\n" := by decide
  have hP : introspectItem "  " "interface" "org.freedesktop.DBus.Properties" ""
        (Interface.xml_contents (propsBuilder (new_interface "org.freedesktop.DBus.Properties")))
      = "  <interface name=\"org.freedesktop.DBus.Properties\">\n" ++
        "    <method name=\"Get\">\n" ++
        "      <arg name=\"interface_name\" type=\"s\" direction=\"in\"/>\n" ++
        "      <arg name=\"property_name\" type=\"s\" direction=\"in\"/>\n" ++
        "      <arg name=\"value\" type=\"v\" direction=\"out\"/>\n" ++
        "    </method>\n" ++
        "    <method name=\"GetAll\">\n" ++
        "      <arg name=\"interface_name\" type=\"s\" direction=\"in\"/>\n" ++
        "      <arg name=\"props\" type=\"a\x7bsv\x7d\" direction=\"out\"/>\n" ++
        "    </method>\n" ++
        "    <method name=\"Set\">\n" ++
        "      <arg name=\"interface_name\" type=\"s\" direction=\"in\"/>\n" ++
        "      <arg name=\"property_name\" type=\"s\" direction=\"in\"/>\n" ++
        "      <arg name=\"value\" type=\"v\" direction=\"in\"/>\n" ++
        "    </method>\n" ++
        "  </interface>\n" := by decide
  have hname : echoBuild.1.name = "/echo" := rfl
  rw [hb, hifs, hch, hE, hI, hP, hname]
  have hHead : ("<!DOCTYPE node PUBLIC \"-//freedesktop//DTD D-BUS Object Introspection 1.0//EN\" \"http://www.freedesktop.org/standards/dbus/1.0/introspect.dtd\">\n<node name=\"" ++
        "/echo") ++ "\">\n"
      = "<!DOCTYPE node PUBLIC \"-//freedesktop//DTD D-BUS Object Introspection 1.0//EN\" \"http://www.freedesktop.org/standards/dbus/1.0/introspect.dtd\">\n" ++
        "<node name=\"/echo\">\n" := by decide
  rw [hHead]
  unfold expectedEchoXml
  simp only [String.append_assoc, String.empty_append]

end DBus
